import Mathlib

/-!
# Verification of the AI-chatroom core subsystems

Shallow embedding of the multi-provider AI completion routing, the token
streaming pipelines, the DeepSeek stream decoder, and the usage/cost
accounting service of the repository, together with theorems settling the
frozen claims about them.

Modelling conventions:
* JavaScript strings are Lean `String`s (for the DeepSeek decoder, where we
  reason by induction over characters, text is `List Char`).
* JavaScript numbers used for money are modelled as `ℚ` (the arithmetic in
  the claims is exact at all the inputs involved).
* Database state is explicit record-of-lists state threaded through the
  functions; a thrown exception is an `Except.error` carrying the message.
* Upstream HTTP streams are the lists of events they deliver.
-/

/-! ## Provider registry (`src/model/aiProviders.ts`) -/

/-- The five provider adapters, in their registration order. -/
inductive Provider
  | openai
  | perplexity
  | anthropic
  | gemini
  | deepseek
deriving DecidableEq

/-- `OPENAI_MODELS` (aiProviders.ts line 63). -/
def OPENAI_MODELS : List String := ["gpt-4o", "gpt-3.5-turbo", "gpt-4o-mini"]

/-- `PerplexityProvider.PERPLEXITY_MODELS` (aiProviders.ts lines 130-134). -/
def PERPLEXITY_MODELS : List String :=
  ["sonar-reasoning-pro", "pplx-70b-chat", "mixtral-8x7b-instruct"]

/-- `AnthropicProvider.CLAUDE_MODELS` (aiProviders.ts lines 175-178):
a record mapping public model name to the real endpoint name;
`canHandle` tests key membership (`hasOwnProperty`). -/
def CLAUDE_MODELS : List (String × String) :=
  [("claude-3-sonnet", "claude-3-sonnet-20240229"),
   ("claude-3-haiku", "claude-3-haiku-20240307")]

/-- `GeminiProvider.GEMINI_MODELS` (aiProviders.ts lines 333-335). -/
def GEMINI_MODELS : List String := ["gemini-pro"]

/-- `DEEPSEEK_MODELS` (aiProviders.ts line 255). -/
def DEEPSEEK_MODELS : List String := ["deepseek-v3", "deepseek-v3.5"]

/-- Each adapter's `canHandle(model)`: a pure membership test against its
static model set (for Anthropic, against the record's keys). -/
def canHandle : Provider → String → Bool
  | .openai, m => decide (m ∈ OPENAI_MODELS)
  | .perplexity, m => decide (m ∈ PERPLEXITY_MODELS)
  | .anthropic, m => decide (m ∈ CLAUDE_MODELS.map Prod.fst)
  | .gemini, m => decide (m ∈ GEMINI_MODELS)
  | .deepseek, m => decide (m ∈ DEEPSEEK_MODELS)

/-- The `providers` array built by `getAIProviderForModel`
(aiProviders.ts lines 19-25), in registration order. -/
def providersList : List Provider :=
  [.openai, .perplexity, .anthropic, .gemini, .deepseek]

/-- `getAIProviderForModel` (aiProviders.ts lines 11-33):
`providers.find((p) => p.canHandle(model))`, throwing
"No provider found" when the linear scan finds no adapter. -/
def getAIProviderForModel (model : String) : Except String Provider :=
  match providersList.find? (fun p => canHandle p model) with
  | some p => Except.ok p
  | none => Except.error ("[AIProviders] No provider found for model: " ++ model)

/-! ## Usage/cost accounting (`server/services/tokenTrackingService.ts`) -/

/-- One entry of the static price table (`AIModelPricing`). -/
structure AIModelPricing where
  id : String
  model : String
  pricePerMtoken : ℚ
deriving DecidableEq

/-- `AI_MODEL_PRICING` (tokenTrackingService.ts lines 17-26). -/
def AI_MODEL_PRICING : List AIModelPricing :=
  [⟨"gpt-4o", "gpt-4o", 5/2⟩,
   ⟨"sonar", "sonar-reasoning", 8⟩,
   ⟨"pplx70b", "pplx-70b-chat", 7⟩,
   ⟨"mixtral", "mixtral-8x7b-instruct", 4⟩,
   ⟨"claude-sonnet", "claude-3-sonnet", 3⟩,
   ⟨"claude-haiku", "claude-3-haiku", 1/4⟩,
   ⟨"gemini-pro", "gemini-pro", 1/500⟩,
   ⟨"deepseek-v3.5", "deepseek-v3.5", 2⟩]

/-- The price-table lookup `AI_MODEL_PRICING.find((p) => p.model === model)`
(tokenTrackingService.ts line 72, also line 139). -/
def pricingFor (model : String) : Option AIModelPricing :=
  AI_MODEL_PRICING.find? (fun p => p.model == model)

/-- The cost computation `(tokensUsed / 1_000_000) * pricing.pricePerMtoken`
(tokenTrackingService.ts line 79). -/
def computeCost (tokensUsed : Nat) (pricePerMtoken : ℚ) : ℚ :=
  (tokensUsed : ℚ) / 1000000 * pricePerMtoken

/-- A row of the `AIService` table; `models` stands for the model names in
its `modelEndpoints` JSON column, which the raw query of `findAIService`
matches against. -/
structure AIServiceRow where
  id : String
  name : String
  models : List String
deriving DecidableEq

/-- A row of the `AIUsageLog` table, as created by `trackTokenUsage`. -/
structure UsageLog where
  userId : String
  aiServiceId : String
  prompt : Option String
  tokensUsed : Nat
  cost : ℚ
  status : String
deriving DecidableEq

/-- The per-user running totals on the `User` table. -/
structure UserRow where
  id : String
  totalTokensUsed : Nat
  totalCostUSD : ℚ
deriving DecidableEq

/-- The persistence state touched by the accounting service. -/
structure DB where
  aiServices : List AIServiceRow
  usageLogs : List UsageLog
  users : List UserRow
deriving DecidableEq

/-- `findAIService` (tokenTrackingService.ts lines 31-43): the first
`AIService` row whose `modelEndpoints` contain the model. -/
def findAIService (db : DB) (model : String) : Option AIServiceRow :=
  db.aiServices.find? (fun s => s.models.contains model)

/-- `prisma.user.update({ data: { totalTokensUsed: { increment: .. },
totalCostUSD: { increment: .. } } })` (tokenTrackingService.ts lines
100-106): an additive increment of the matching user row. -/
def applyIncrement (users : List UserRow) (userId : String)
    (tokensUsed : Nat) (cost : ℚ) : List UserRow :=
  users.map (fun u =>
    if u.id == userId then
      { u with totalTokensUsed := u.totalTokensUsed + tokensUsed,
               totalCostUSD := u.totalCostUSD + cost }
    else u)

/-- `db.users.find` by id, for stating properties about a user's totals. -/
def userRow (db : DB) (userId : String) : Option UserRow :=
  db.users.find? (fun u => u.id == userId)

/-- `TokenTrackingService.trackTokenUsage` (tokenTrackingService.ts lines
52-114): looks up the `AIService` row, then the static pricing, computes the
cost, creates the usage log, and increments the user's running totals
(throwing "Record not found" where `prisma.user.update` would, i.e. when no
user row matches). The returned `DB` is the state after the call, also on
the error paths. -/
def trackTokenUsage (db : DB) (userId model : String) (tokensUsed : Nat)
    (prompt : Option String) : DB × Except String UsageLog :=
  match findAIService db model with
  | none => (db, Except.error ("No AI service found for model: " ++ model))
  | some aiService =>
    match pricingFor model with
    | none => (db, Except.error ("No pricing found for model: " ++ model))
    | some pricing =>
      let costInUSD := computeCost tokensUsed pricing.pricePerMtoken
      let usageLog : UsageLog :=
        { userId := userId, aiServiceId := aiService.id, prompt := prompt,
          tokensUsed := tokensUsed, cost := costInUSD, status := "completed" }
      let db1 : DB := { db with usageLogs := db.usageLogs ++ [usageLog] }
      match db1.users.find? (fun u => u.id == userId) with
      | none => (db1, Except.error "Record not found")
      | some _ =>
        ({ db1 with users := applyIncrement db1.users userId tokensUsed costInUSD },
         Except.ok usageLog)

/-- The summary record built by `getUserUsageSummary`; the JS `Map` is an
insertion-ordered association list. -/
structure UsageSummary where
  totalTokens : Nat
  totalCostUSD : ℚ
  usageByModel : List (String × Nat × ℚ)
deriving DecidableEq

/-- `summary.usageByModel.set(model, prev + log)` where `prev` is
`summary.usageByModel.get(model) || {tokens: 0, cost: 0}`
(tokenTrackingService.ts lines 144-147): add into the existing entry, or
append a new one (JS `Map.set` keeps insertion order). -/
def usageByModelAdd : List (String × Nat × ℚ) → String → Nat → ℚ →
    List (String × Nat × ℚ)
  | [], model, tokens, cost => [(model, tokens, cost)]
  | (k, t, c) :: rest, model, tokens, cost =>
    if k == model then (k, t + tokens, c + cost) :: rest
    else (k, t, c) :: usageByModelAdd rest model tokens cost

/-- The body of the `usageLogs.forEach` in `getUserUsageSummary`
(tokenTrackingService.ts lines 135-149), acting on one log presented as
`(tokensUsed, AIService.name)`: `totalTokens` is always incremented, while
`totalCostUSD` and `usageByModel` are only updated when the service's name
has a pricing entry. -/
def summStep (s : UsageSummary) (log : Nat × String) : UsageSummary :=
  let s1 := { s with totalTokens := s.totalTokens + log.1 }
  match pricingFor log.2 with
  | none => s1
  | some pricing =>
    let cost := computeCost log.1 pricing.pricePerMtoken
    { s1 with totalCostUSD := s1.totalCostUSD + cost,
              usageByModel := usageByModelAdd s1.usageByModel log.2 log.1 cost }

/-- `TokenTrackingService.getUserUsageSummary` (tokenTrackingService.ts
lines 119-157), as a function of the user's persisted usage logs joined
with their `AIService.name`. -/
def getUserUsageSummary (logs : List (Nat × String)) : UsageSummary :=
  logs.foldl summStep ⟨0, 0, []⟩

/-- Sum of the `tokens` fields over the `usageByModel` entries. -/
def sumTokens (m : List (String × Nat × ℚ)) : Nat :=
  (m.map (fun e => e.2.1)).sum

/-- Sum of the `cost` fields over the `usageByModel` entries. -/
def sumCosts (m : List (String × Nat × ℚ)) : ℚ :=
  (m.map (fun e => e.2.2)).sum

/-- JS `String.prototype.trim` on character lists: strip whitespace from
both ends. -/
def listTrim (l : List Char) : List Char :=
  ((l.dropWhile Char.isWhitespace).reverse.dropWhile Char.isWhitespace).reverse

/-- JS `String.prototype.trim` on strings (executable model; Lean's own
`String.trim` is not used because its `Substring` implementation does not
reduce). -/
def strTrim (s : String) : String :=
  ⟨listTrim s.data⟩

/-! ## Token streaming pipelines (`chat.service.ts`, `anonChat.service.ts`) -/

/-- A persisted conversation message (role and content). -/
structure Msg where
  role : String
  content : String
deriving DecidableEq

/-- One event delivered by an adapter's upstream stream: either one
invocation of the pipeline's `onToken` callback, or the stream erroring. -/
inductive StreamEvent
  | tok (s : String)
  | err (e : String)
deriving DecidableEq

/-- Driving the adapter's stream: each `tok` event invokes the callback
(appending to the emitted list) and increments the token counter; an `err`
event aborts with that error, leaving later events unreached. Returns the
tokens handed to the sink, in order, together with the adapter's result. -/
def runStreamAux (emitted : List String) (n : Nat) :
    List StreamEvent → List String × Except String Nat
  | [] => (emitted, Except.ok n)
  | StreamEvent.tok s :: rest => runStreamAux (emitted ++ [s]) (n + 1) rest
  | StreamEvent.err e :: _ => (emitted, Except.error e)

/-- The adapter's `streamCompletion` call as seen by the pipelines. -/
def runStream (events : List StreamEvent) : List String × Except String Nat :=
  runStreamAux [] 0 events

/-- `ChatService.addAssistantMessage` (chatService.ts lines 145-174), DB
path: appends an assistant message with the content as given. -/
def addAssistantMessage (msgs : List Msg) (content : String) : List Msg :=
  msgs ++ [⟨"assistant", content⟩]

/-- `AnonymousChatService.addAssistantMessage` (anonChat.service.ts lines
108-117): appends an assistant message with `content.trim()`. -/
def anonAddAssistantMessage (msgs : List Msg) (content : String) : List Msg :=
  msgs ++ [⟨"assistant", strTrim content⟩]

/-- `ChatService.streamChatCompletion` (chatService.ts lines 231-288):
resolves the provider, drains its stream accumulating `assistantContent`
while forwarding each token to the SSE sink, and afterwards — only when
`assistantContent.trim().length > 0` — tracks usage for a logged-in user
(tracking errors are swallowed by the inner try/catch) and appends the
assistant message. The first component is the list of sink invocations. -/
def streamChatCompletion (db : DB) (userIdOpt : Option String) (model : String)
    (events : List StreamEvent) (msgs : List Msg) :
    List String × Except String (List Msg × DB) :=
  match getAIProviderForModel model with
  | Except.error e => ([], Except.error e)
  | Except.ok _ =>
    match runStream events with
    | (emitted, Except.error e) => (emitted, Except.error e)
    | (emitted, Except.ok totalTokens) =>
      let assistantContent := String.join emitted
      if 0 < (strTrim assistantContent).length then
        let db1 : DB :=
          match userIdOpt with
          | some uid =>
            (trackTokenUsage db uid model totalTokens
              ((msgs.getLast?).map Msg.content)).1
          | none => db
        (emitted, Except.ok (addAssistantMessage msgs assistantContent, db1))
      else
        (emitted, Except.ok (msgs, db))

/-- `ALLOWED_MODELS` (anonChat.config). -/
def ALLOWED_MODELS : List String := ["gpt-3.5-turbo", "sonar-reasoning-pro"]

/-- `AnonymousChatService.streamAnonymousCompletion` (anonChat.service.ts
lines 138-184): validates the model against `ALLOWED_MODELS`, requires a
non-empty message history, resolves the provider, drains the stream into
`assistantBuffer` while forwarding tokens, stores the assistant response
when `assistantBuffer.trim()` is truthy (the stored content being the
trimmed buffer), and returns the total token count. -/
def streamAnonymousCompletion (model : String) (events : List StreamEvent)
    (msgs : List Msg) : List String × Except String (List Msg × Nat) :=
  if ¬ (ALLOWED_MODELS.contains model) then
    ([], Except.error "Invalid model for anonymous chat.")
  else if msgs.isEmpty then
    ([], Except.error "No messages found.")
  else
    match getAIProviderForModel model with
    | Except.error e => ([], Except.error e)
    | Except.ok _ =>
      match runStream events with
      | (emitted, Except.error e) => (emitted, Except.error e)
      | (emitted, Except.ok totalTokens) =>
        let assistantBuffer := String.join emitted
        if strTrim assistantBuffer ≠ "" then
          (emitted, Except.ok (anonAddAssistantMessage msgs assistantBuffer, totalTokens))
        else
          (emitted, Except.ok (msgs, totalTokens))

/-! ## Adapter stream loop (`OpenAIProvider.streamCompletion`) -/

/-- The stream-consuming loop of `OpenAIProvider.streamCompletion`
(aiProviders.ts lines 102-108; the Perplexity and Gemini adapters repeat it
verbatim): each upstream part carries an optional delta content
(`part.choices?.[0]?.delta?.content ?? ""`), and the sink is invoked — and
the counter incremented — only when that content is non-empty. Returns the
sink invocations in order and the returned total. -/
def openAIStreamCompletion (parts : List (Option String)) : List String × Nat :=
  parts.foldl
    (fun acc part =>
      let token := part.getD ""
      if token ≠ "" then (acc.1 ++ [token], acc.2 + 1) else acc)
    ([], 0)

/-- The non-empty delta contents of the upstream parts, in arrival order. -/
def nonEmptyTokens (parts : List (Option String)) : List String :=
  parts.filterMap (fun part =>
    let token := part.getD ""
    if token ≠ "" then some token else none)

/-! ## DeepSeek stream decoding (`DeepSeekProvider.streamCompletion`,
aiProviders.ts lines 295-317) -/

/-- The Unicode replacement character produced by `TextDecoder` for
malformed input. -/
def replChar : Char := '�'

/-- Models the WHATWG UTF-8 decode-with-replacement performed by
`new TextDecoder().decode(bytes)` on one read: multi-byte sequences are
decoded when complete and well-formed; malformed or truncated sequences
yield replacement characters. -/
def decodeUtf8 : List Nat → List Char
  | [] => []
  | b :: rest =>
    if b < 0x80 then Char.ofNat b :: decodeUtf8 rest
    else if b < 0xC2 then replChar :: decodeUtf8 rest
    else if b ≤ 0xDF then
      match rest with
      | [] => [replChar]
      | b2 :: rest2 =>
        if 0x80 ≤ b2 ∧ b2 ≤ 0xBF then
          Char.ofNat ((b - 0xC0) * 64 + (b2 - 0x80)) :: decodeUtf8 rest2
        else replChar :: decodeUtf8 (b2 :: rest2)
    else if b ≤ 0xEF then
      match rest with
      | [] => [replChar]
      | b2 :: rest2 =>
        if (if b = 0xE0 then 0xA0 ≤ b2 ∧ b2 ≤ 0xBF
            else if b = 0xED then 0x80 ≤ b2 ∧ b2 ≤ 0x9F
            else 0x80 ≤ b2 ∧ b2 ≤ 0xBF) then
          match rest2 with
          | [] => [replChar]
          | b3 :: rest3 =>
            if 0x80 ≤ b3 ∧ b3 ≤ 0xBF then
              Char.ofNat ((b - 0xE0) * 4096 + (b2 - 0x80) * 64 + (b3 - 0x80)) ::
                decodeUtf8 rest3
            else replChar :: decodeUtf8 (b3 :: rest3)
        else replChar :: decodeUtf8 (b2 :: rest2)
    else if b ≤ 0xF4 then
      match rest with
      | [] => [replChar]
      | b2 :: rest2 =>
        if (if b = 0xF0 then 0x90 ≤ b2 ∧ b2 ≤ 0xBF
            else if b = 0xF4 then 0x80 ≤ b2 ∧ b2 ≤ 0x8F
            else 0x80 ≤ b2 ∧ b2 ≤ 0xBF) then
          match rest2 with
          | [] => [replChar]
          | b3 :: rest3 =>
            if 0x80 ≤ b3 ∧ b3 ≤ 0xBF then
              match rest3 with
              | [] => [replChar]
              | b4 :: rest4 =>
                if 0x80 ≤ b4 ∧ b4 ≤ 0xBF then
                  Char.ofNat ((b - 0xF0) * 262144 + (b2 - 0x80) * 4096 +
                    (b3 - 0x80) * 64 + (b4 - 0x80)) :: decodeUtf8 rest4
                else replChar :: decodeUtf8 (b4 :: rest4)
            else replChar :: decodeUtf8 (b3 :: rest3)
        else replChar :: decodeUtf8 (b2 :: rest2)
    else replChar :: decodeUtf8 rest

/-- JS `buffer.split("\n")` on character lists: always non-empty; the
last element is the text after the final newline. -/
def splitOnNl : List Char → List (List Char)
  | [] => [[]]
  | c :: rest =>
    if c = '\n' then [] :: splitOnNl rest
    else
      match splitOnNl rest with
      | [] => [[c]]
      | l :: ls => (c :: l) :: ls

/-- One iteration of the DeepSeek read loop (aiProviders.ts lines 300-305):
append the decoded chunk to the carry-over buffer, split on newlines, keep
the last (incomplete) piece as the new buffer (`tokens.pop() || ""`), and
hand the complete lines on for processing. -/
def processRead (buffer chunk : List Char) : List (List Char) × List Char :=
  let parts := splitOnNl (buffer ++ chunk)
  (parts.dropLast, parts.getLast!)

/-- The whole read loop: fold `processRead` over the successive reads,
collecting the complete lines; the final carry-over buffer is discarded
when the reader reports `done` (aiProviders.ts line 298). -/
def runReads (reads : List (List Char)) : List (List Char) × List Char :=
  reads.foldl
    (fun acc chunk =>
      let r := processRead acc.2 chunk
      (acc.1 ++ r.1, r.2))
    ([], [])

/-- Processing of one complete line (aiProviders.ts lines 307-315): skipped
when `token.trim()` is empty; otherwise `parse` stands for
`JSON.parse(token).choices[0]?.delta?.content || ""` being non-empty
(`some content`) or not (`none`); a `some` is one `onToken` call. -/
def extractLine (parse : List Char → Option String) (line : List Char) :
    Option String :=
  if listTrim line = [] then none else parse line

/-- The sequence of `onToken` calls `DeepSeekProvider.streamCompletion`
makes for the given successive decoded reads. -/
def deepseekTokens (parse : List Char → Option String)
    (reads : List (List Char)) : List String :=
  (runReads reads).1.filterMap (extractLine parse)

/-- The same, starting from the raw byte reads: the code decodes each read
with a fresh `new TextDecoder().decode(value)` (aiProviders.ts line 300). -/
def deepseekTokensBytes (parse : List Char → Option String)
    (reads : List (List Nat)) : List String :=
  deepseekTokens parse (reads.map decodeUtf8)

/-- Character-level state machine equivalent to the read loop: feed one
character, flushing the buffer as a complete line on a newline. -/
def feedChar (st : List (List Char) × List Char) (c : Char) :
    List (List Char) × List Char :=
  if c = '\n' then (st.1 ++ [st.2], []) else (st.1, st.2 ++ [c])

/-! ## Anonymous user-message submission (`anonChat.service.ts`) -/

/-- `MAX_MESSAGES_PER_CONVERSATION` (anonChat.config). -/
def MAX_MESSAGES_PER_CONVERSATION : Nat := 10

/-- `MAX_CONTENT_LENGTH` (anonChat.config). -/
def MAX_CONTENT_LENGTH : Nat := 500

/-- `AnonymousChatService.addUserMessage` (anonChat.service.ts lines
81-103): rejects content longer than `MAX_CONTENT_LENGTH`, rejects when the
conversation already holds `MAX_MESSAGES_PER_CONVERSATION` messages, and
otherwise persists the trimmed content as a user message. -/
def addUserMessage (msgs : List Msg) (content : String) :
    Except String (List Msg) :=
  if content.length > MAX_CONTENT_LENGTH then
    Except.error "Message too long. Max 500 characters."
  else if msgs.length ≥ MAX_MESSAGES_PER_CONVERSATION then
    Except.error "Max messages reached. Start a new conversation."
  else
    Except.ok (msgs ++ [⟨"user", strTrim content⟩])

/-! ## Sample states used by witnesses and counterexamples -/

/-- A sample accounting state: one `AIService` row serving `gpt-4o` and
`sonar-reasoning-pro`, no usage logs, one user with zeroed totals. -/
def dbSample : DB :=
  { aiServices := [⟨"svc-1", "gpt-4o", ["gpt-4o", "sonar-reasoning-pro"]⟩],
    usageLogs := [],
    users := [⟨"user-1", 0, 0⟩] }

/-! ## Theorems -/

/-- The capability sets of the five adapters are pairwise disjoint:
at most one adapter claims any given model id. -/
lemma canHandle_unique (m : String) (p q : Provider)
    (hp : canHandle p m = true) (hq : canHandle q m = true) : p = q := by
  cases p <;> cases q <;>
    simp_all [canHandle, OPENAI_MODELS, PERPLEXITY_MODELS, CLAUDE_MODELS,
      GEMINI_MODELS, DEEPSEEK_MODELS] <;>
    casesm* _ ∨ _ <;> simp_all

/-- C1: the registry tries the adapters in registration order
(OpenAI, Perplexity, Anthropic, Gemini, DeepSeek) and returns the first —
by disjointness of the capability sets, the unique — adapter whose
`canHandle` accepts the model, and throws the "No provider found" error
when no adapter claims it. -/
theorem C1_registry_dispatch (m : String) :
    (∀ p : Provider, p ∈ providersList → canHandle p m = true →
        getAIProviderForModel m = Except.ok p) ∧
    ((∀ p : Provider, p ∈ providersList → canHandle p m = false) →
        getAIProviderForModel m =
          Except.error ("[AIProviders] No provider found for model: " ++ m)) := by
  constructor
  · intro p _hmem hp
    have huniq : ∀ q : Provider, canHandle q m = true → q = p := fun q hq =>
      canHandle_unique m q p hq hp
    cases p with
    | openai =>
      simp [getAIProviderForModel, providersList, List.find?, hp]
    | perplexity =>
      have h1 : canHandle .openai m = false := by
        cases h : canHandle .openai m
        · rfl
        · cases huniq _ h
      simp [getAIProviderForModel, providersList, List.find?, hp, h1]
    | anthropic =>
      have h1 : canHandle .openai m = false := by
        cases h : canHandle .openai m
        · rfl
        · cases huniq _ h
      have h2 : canHandle .perplexity m = false := by
        cases h : canHandle .perplexity m
        · rfl
        · cases huniq _ h
      simp [getAIProviderForModel, providersList, List.find?, hp, h1, h2]
    | gemini =>
      have h1 : canHandle .openai m = false := by
        cases h : canHandle .openai m
        · rfl
        · cases huniq _ h
      have h2 : canHandle .perplexity m = false := by
        cases h : canHandle .perplexity m
        · rfl
        · cases huniq _ h
      have h3 : canHandle .anthropic m = false := by
        cases h : canHandle .anthropic m
        · rfl
        · cases huniq _ h
      simp [getAIProviderForModel, providersList, List.find?, hp, h1, h2, h3]
    | deepseek =>
      have h1 : canHandle .openai m = false := by
        cases h : canHandle .openai m
        · rfl
        · cases huniq _ h
      have h2 : canHandle .perplexity m = false := by
        cases h : canHandle .perplexity m
        · rfl
        · cases huniq _ h
      have h3 : canHandle .anthropic m = false := by
        cases h : canHandle .anthropic m
        · rfl
        · cases huniq _ h
      have h4 : canHandle .gemini m = false := by
        cases h : canHandle .gemini m
        · rfl
        · cases huniq _ h
      simp [getAIProviderForModel, providersList, List.find?, hp, h1, h2, h3, h4]
  · intro hnone
    have h1 := hnone .openai (by simp [providersList])
    have h2 := hnone .perplexity (by simp [providersList])
    have h3 := hnone .anthropic (by simp [providersList])
    have h4 := hnone .gemini (by simp [providersList])
    have h5 := hnone .deepseek (by simp [providersList])
    simp [getAIProviderForModel, providersList, List.find?, h1, h2, h3, h4, h5]

/-- Witness for C1: `"gpt-4o"` is claimed by the OpenAI adapter and the
registry resolves it to that adapter; a model no adapter claims produces
the dispatch error. -/
theorem C1_registry_dispatch_witness :
    getAIProviderForModel "gpt-4o" = Except.ok Provider.openai ∧
    getAIProviderForModel "no-such-model" =
      Except.error "[AIProviders] No provider found for model: no-such-model" :=
  ⟨(C1_registry_dispatch "gpt-4o").1 Provider.openai (by decide) (by decide),
   (C1_registry_dispatch "no-such-model").2 (by decide)⟩

/-- The adapter loop, started from any accumulator, appends exactly the
non-empty delta contents in order and adds their number to the counter. -/
lemma openAIStream_foldl (parts : List (Option String)) :
    ∀ (acc : List String × Nat),
      parts.foldl
        (fun acc part =>
          let token := part.getD ""
          if token ≠ "" then (acc.1 ++ [token], acc.2 + 1) else acc)
        acc
      = (acc.1 ++ nonEmptyTokens parts, acc.2 + (nonEmptyTokens parts).length) := by
  induction parts with
  | nil => intro acc; simp [nonEmptyTokens]
  | cons p ps ih =>
    intro acc
    rw [List.foldl_cons]
    by_cases h : p.getD "" = ""
    · have hstep : (let token := p.getD ""
          if token ≠ "" then (acc.1 ++ [token], acc.2 + 1) else acc) = acc := by
        simp [h]
      rw [hstep, ih acc]
      simp [nonEmptyTokens, List.filterMap_cons, h]
    · have hstep : (let token := p.getD ""
          if token ≠ "" then (acc.1 ++ [token], acc.2 + 1) else acc)
          = (acc.1 ++ [p.getD ""], acc.2 + 1) := by
        simp [h]
      rw [hstep, ih (acc.1 ++ [p.getD ""], acc.2 + 1)]
      have hne : nonEmptyTokens (p :: ps) = p.getD "" :: nonEmptyTokens ps := by
        simp [nonEmptyTokens, List.filterMap_cons, h]
      rw [hne]
      refine Prod.ext ?_ ?_
      · simp [List.append_assoc]
      · simp only [List.length_cons]
        omega

/-- C4 (counterexample): an upstream part whose delta content is the empty
string is a delivered fragment for which the sink is not invoked and the
counter not incremented — the claim would require one sink call and a
returned count of 1. -/
theorem C4_per_fragment_counterexample :
    openAIStreamCompletion [some ""] = ([], 0) ∧ [some ""].length = 1 := by
  constructor
  · rfl
  · rfl

/-- C4 (amended): `streamCompletion` invokes the sink once per fragment
with non-empty delta content, in exactly the arrival order, and returns the
number of those non-empty fragments. -/
theorem C4_stream_order_and_count (parts : List (Option String)) :
    openAIStreamCompletion parts =
      (nonEmptyTokens parts, (nonEmptyTokens parts).length) := by
  have h := openAIStream_foldl parts ([], 0)
  simpa [openAIStreamCompletion] using h

/-- C10: anonymous user-message submission rejects content longer than 500
characters with "Message too long", rejects a conversation already holding
10 messages with "Max messages reached" (persisting nothing in both cases),
and otherwise persists the trimmed content as a user message. -/
theorem C10_addUserMessage_caps (msgs : List Msg) (content : String) :
    (content.length > MAX_CONTENT_LENGTH →
      addUserMessage msgs content =
        Except.error "Message too long. Max 500 characters.") ∧
    (content.length ≤ MAX_CONTENT_LENGTH →
      msgs.length ≥ MAX_MESSAGES_PER_CONVERSATION →
      addUserMessage msgs content =
        Except.error "Max messages reached. Start a new conversation.") ∧
    (content.length ≤ MAX_CONTENT_LENGTH →
      msgs.length < MAX_MESSAGES_PER_CONVERSATION →
      addUserMessage msgs content =
        Except.ok (msgs ++ [⟨"user", strTrim content⟩])) := by
  refine ⟨fun h => ?_, fun h1 h2 => ?_, fun h1 h2 => ?_⟩
  · simp [addUserMessage, h]
  · simp [addUserMessage, Nat.not_lt.mpr h1, h2, Nat.not_lt.mpr h2]
  · simp [addUserMessage, Nat.not_lt.mpr h1, Nat.not_le.mpr h2]

/-- Witness for C10: a 9-message conversation accepts `"  hello  "`
(stored trimmed), a 10-message conversation rejects it, and a 501-character
message is rejected. -/
theorem C10_addUserMessage_caps_witness :
    addUserMessage [] "  hello  " = Except.ok [⟨"user", "hello"⟩] ∧
    addUserMessage (List.replicate 10 ⟨"user", "x"⟩) "hi" =
      Except.error "Max messages reached. Start a new conversation." ∧
    addUserMessage [] (String.mk (List.replicate 501 'a')) =
      Except.error "Message too long. Max 500 characters." := by
  refine ⟨?_, ?_, ?_⟩
  · have h := (C10_addUserMessage_caps [] "  hello  ").2.2 (by decide) (by decide)
    rw [show strTrim "  hello  " = "hello" from by decide] at h
    simpa using h
  · exact (C10_addUserMessage_caps (List.replicate 10 ⟨"user", "x"⟩) "hi").2.1
      (by decide) (by decide)
  · refine (C10_addUserMessage_caps [] (String.mk (List.replicate 501 'a'))).1 ?_
    show (List.replicate 501 'a').length > 500
    rw [List.length_replicate]
    omega

/-- Shape of a successful `trackTokenUsage` call: with the `AIService` row,
the pricing entry and the user row all present, the call appends one usage
log carrying the computed cost and increments the user's totals by the
token count and that cost. -/
lemma trackTokenUsage_ok (db : DB) (userId model : String) (tokensUsed : Nat)
    (prompt : Option String) (svc : AIServiceRow) (pricing : AIModelPricing)
    (u0 : UserRow)
    (hs : findAIService db model = some svc)
    (hp : pricingFor model = some pricing)
    (hu : userRow db userId = some u0) :
    trackTokenUsage db userId model tokensUsed prompt =
      ({ db with
          usageLogs := db.usageLogs ++
            [⟨userId, svc.id, prompt, tokensUsed,
              computeCost tokensUsed pricing.pricePerMtoken, "completed"⟩],
          users := applyIncrement db.users userId tokensUsed
            (computeCost tokensUsed pricing.pricePerMtoken) },
       Except.ok ⟨userId, svc.id, prompt, tokensUsed,
         computeCost tokensUsed pricing.pricePerMtoken, "completed"⟩) := by
  unfold trackTokenUsage
  rw [hs, hp]
  simp only [userRow] at hu
  simp [hu]

/-- `find?` by user id over an `applyIncrement` update: the increment
touches only the totals, so the lookup finds the updated image of the row
it would have found before. -/
lemma find?_applyIncrement (users : List UserRow) (userId : String)
    (t : Nat) (c : ℚ) :
    (applyIncrement users userId t c).find? (fun u => u.id == userId) =
      (users.find? (fun u => u.id == userId)).map (fun u =>
        { u with totalTokensUsed := u.totalTokensUsed + t,
                 totalCostUSD := u.totalCostUSD + c }) := by
  induction users with
  | nil => rfl
  | cons u us ih =>
    simp only [applyIncrement, List.map_cons]
    by_cases h : u.id == userId
    · have hhead : (if u.id == userId then
          ({ u with totalTokensUsed := u.totalTokensUsed + t,
                    totalCostUSD := u.totalCostUSD + c } : UserRow)
          else u)
          = { u with totalTokensUsed := u.totalTokensUsed + t,
                     totalCostUSD := u.totalCostUSD + c } := if_pos h
      rw [hhead,
        @List.find?_cons_of_pos _ (fun v => v.id == userId)
          ({ u with totalTokensUsed := u.totalTokensUsed + t,
                    totalCostUSD := u.totalCostUSD + c } : UserRow) _ (by exact h),
        @List.find?_cons_of_pos _ (fun v => v.id == userId) u us h]
      rfl
    · have hhead : (if u.id == userId then
          ({ u with totalTokensUsed := u.totalTokensUsed + t,
                    totalCostUSD := u.totalCostUSD + c } : UserRow)
          else u) = u := if_neg h
      rw [hhead,
        @List.find?_cons_of_neg _ (fun v => v.id == userId) u _ h,
        @List.find?_cons_of_neg _ (fun v => v.id == userId) u us h]
      exact ih

/-- C5: for a model present in the price table (with the `AIService` row and
the user row present so the call succeeds), the persisted usage log carries
exactly `cost = tokensUsed / 1_000_000 * pricePerMillion`; in particular the
`gpt-4o` entry prices at `5/2` per million tokens, a million tokens cost
`5/2` and zero tokens cost `0`. -/
theorem C5_cost_computation (db : DB) (userId model : String) (tokensUsed : Nat)
    (prompt : Option String) (svc : AIServiceRow) (pricing : AIModelPricing)
    (u0 : UserRow)
    (hs : findAIService db model = some svc)
    (hp : pricingFor model = some pricing)
    (hu : userRow db userId = some u0) :
    (trackTokenUsage db userId model tokensUsed prompt).2 =
      Except.ok ⟨userId, svc.id, prompt, tokensUsed,
        computeCost tokensUsed pricing.pricePerMtoken, "completed"⟩ ∧
    computeCost tokensUsed pricing.pricePerMtoken =
      (tokensUsed : ℚ) / 1000000 * pricing.pricePerMtoken ∧
    computeCost 1000000 (5/2) = 5/2 ∧
    computeCost 0 pricing.pricePerMtoken = 0 ∧
    pricingFor "gpt-4o" = some ⟨"gpt-4o", "gpt-4o", 5/2⟩ := by
  refine ⟨?_, rfl, ?_, ?_, by rfl⟩
  · rw [trackTokenUsage_ok db userId model tokensUsed prompt svc pricing u0 hs hp hu]
  · norm_num [computeCost]
  · simp [computeCost]

/-- Witness for C5: on the sample state, tracking a million tokens of
`gpt-4o` records a cost of exactly `5/2` USD. -/
theorem C5_cost_computation_witness :
    (trackTokenUsage dbSample "user-1" "gpt-4o" 1000000 none).2 =
      Except.ok ⟨"user-1", "svc-1", none, 1000000,
        computeCost 1000000 (5/2), "completed"⟩ ∧
    computeCost 1000000 (5/2) = 5/2 := by
  have h := C5_cost_computation dbSample "user-1" "gpt-4o" 1000000 none
    ⟨"svc-1", "gpt-4o", ["gpt-4o", "sonar-reasoning-pro"]⟩
    ⟨"gpt-4o", "gpt-4o", 5/2⟩ ⟨"user-1", 0, 0⟩
    (by rfl) (by rfl) (by rfl)
  exact ⟨h.1, h.2.2.1⟩

/-- C6: for a model with no entry in the static price table — as is the
case for `sonar-reasoning-pro`, `gpt-3.5-turbo`, `gpt-4o-mini` and
`deepseek-v3`, all of which a registered provider nonetheless serves —
`trackTokenUsage` fails with the "No pricing found" error and leaves the
state exactly as it was: no usage record, unchanged counters. -/
theorem C6_missing_pricing (db : DB) (userId model : String) (tokensUsed : Nat)
    (prompt : Option String) (svc : AIServiceRow)
    (hs : findAIService db model = some svc)
    (hp : pricingFor model = none) :
    trackTokenUsage db userId model tokensUsed prompt =
      (db, Except.error ("No pricing found for model: " ++ model)) ∧
    pricingFor "sonar-reasoning-pro" = none ∧
    pricingFor "gpt-3.5-turbo" = none ∧
    pricingFor "gpt-4o-mini" = none ∧
    pricingFor "deepseek-v3" = none ∧
    getAIProviderForModel "sonar-reasoning-pro" = Except.ok Provider.perplexity ∧
    getAIProviderForModel "gpt-3.5-turbo" = Except.ok Provider.openai ∧
    getAIProviderForModel "gpt-4o-mini" = Except.ok Provider.openai ∧
    getAIProviderForModel "deepseek-v3" = Except.ok Provider.deepseek := by
  refine ⟨?_, by rfl, by rfl, by rfl, by rfl,
    by rfl, by rfl, by rfl, by rfl⟩
  unfold trackTokenUsage
  rw [hs, hp]

/-- Witness for C6: on the sample state, tracking `sonar-reasoning-pro`
(which its service row lists but the price table lacks) errors and returns
the state unchanged. -/
theorem C6_missing_pricing_witness :
    trackTokenUsage dbSample "user-1" "sonar-reasoning-pro" 5 none =
      (dbSample,
       Except.error ("No pricing found for model: " ++ "sonar-reasoning-pro")) :=
  (C6_missing_pricing dbSample "user-1" "sonar-reasoning-pro" 5 none
    ⟨"svc-1", "gpt-4o", ["gpt-4o", "sonar-reasoning-pro"]⟩
    (by rfl) (by rfl)).1

/-- C7: `trackTokenUsage` is not idempotent — two successive calls with
identical arguments append two separate usage-log records and increment the
user's running totals by `2 * tokensUsed` tokens and twice the computed
cost; the updates are additive deltas. -/
theorem C7_not_idempotent (db : DB) (userId model : String) (tokensUsed : Nat)
    (prompt : Option String) (svc : AIServiceRow) (pricing : AIModelPricing)
    (u0 : UserRow)
    (hs : findAIService db model = some svc)
    (hp : pricingFor model = some pricing)
    (hu : userRow db userId = some u0) :
    (trackTokenUsage db userId model tokensUsed prompt).2 =
      Except.ok ⟨userId, svc.id, prompt, tokensUsed,
        computeCost tokensUsed pricing.pricePerMtoken, "completed"⟩ ∧
    (trackTokenUsage (trackTokenUsage db userId model tokensUsed prompt).1
        userId model tokensUsed prompt).2 =
      Except.ok ⟨userId, svc.id, prompt, tokensUsed,
        computeCost tokensUsed pricing.pricePerMtoken, "completed"⟩ ∧
    (trackTokenUsage (trackTokenUsage db userId model tokensUsed prompt).1
        userId model tokensUsed prompt).1.usageLogs =
      db.usageLogs ++
        [⟨userId, svc.id, prompt, tokensUsed,
          computeCost tokensUsed pricing.pricePerMtoken, "completed"⟩,
         ⟨userId, svc.id, prompt, tokensUsed,
          computeCost tokensUsed pricing.pricePerMtoken, "completed"⟩] ∧
    userRow (trackTokenUsage (trackTokenUsage db userId model tokensUsed prompt).1
        userId model tokensUsed prompt).1 userId =
      some { u0 with
        totalTokensUsed := u0.totalTokensUsed + 2 * tokensUsed,
        totalCostUSD := u0.totalCostUSD +
          2 * computeCost tokensUsed pricing.pricePerMtoken } := by
  have h1 := trackTokenUsage_ok db userId model tokensUsed prompt svc pricing u0
    hs hp hu
  set cost := computeCost tokensUsed pricing.pricePerMtoken with hcost
  set db1 : DB := { db with
      usageLogs := db.usageLogs ++
        [⟨userId, svc.id, prompt, tokensUsed, cost, "completed"⟩],
      users := applyIncrement db.users userId tokensUsed cost } with hdb1
  have hs1 : findAIService db1 model = some svc := hs
  have hu1 : userRow db1 userId =
      some { u0 with totalTokensUsed := u0.totalTokensUsed + tokensUsed,
                     totalCostUSD := u0.totalCostUSD + cost } := by
    show (applyIncrement db.users userId tokensUsed cost).find?
        (fun u => u.id == userId) = _
    rw [find?_applyIncrement]
    rw [show db.users.find? (fun u => u.id == userId) = some u0 from hu]
    rfl
  have h2 := trackTokenUsage_ok db1 userId model tokensUsed prompt svc pricing
    { u0 with totalTokensUsed := u0.totalTokensUsed + tokensUsed,
              totalCostUSD := u0.totalCostUSD + cost } hs1 hp hu1
  refine ⟨by rw [h1], ?_, ?_, ?_⟩
  · rw [show (trackTokenUsage db userId model tokensUsed prompt).1 = db1 from by
      rw [h1], h2]
  · rw [show (trackTokenUsage db userId model tokensUsed prompt).1 = db1 from by
      rw [h1], h2]
    simp [hdb1]
  · rw [show (trackTokenUsage db userId model tokensUsed prompt).1 = db1 from by
      rw [h1], h2]
    show (applyIncrement db1.users userId tokensUsed cost).find?
        (fun u => u.id == userId) = _
    rw [find?_applyIncrement]
    have : db1.users = applyIncrement db.users userId tokensUsed cost := rfl
    rw [this, find?_applyIncrement,
      show db.users.find? (fun u => u.id == userId) = some u0 from hu]
    simp only [Option.map_some']
    refine congrArg some ?_
    show ({ id := u0.id,
            totalTokensUsed := u0.totalTokensUsed + tokensUsed + tokensUsed,
            totalCostUSD := u0.totalCostUSD + cost + cost } : UserRow) = _
    rw [show u0.totalTokensUsed + tokensUsed + tokensUsed =
          u0.totalTokensUsed + 2 * tokensUsed from by omega,
        show u0.totalCostUSD + cost + cost = u0.totalCostUSD + 2 * cost from by
          ring]

/-- Witness for C7: on the sample state, tracking 5 `gpt-4o` tokens twice
leaves two usage records and totals of 10 tokens and twice the cost. -/
theorem C7_not_idempotent_witness :
    (trackTokenUsage (trackTokenUsage dbSample "user-1" "gpt-4o" 5 none).1
        "user-1" "gpt-4o" 5 none).1.usageLogs =
      [⟨"user-1", "svc-1", none, 5, computeCost 5 (5/2), "completed"⟩,
       ⟨"user-1", "svc-1", none, 5, computeCost 5 (5/2), "completed"⟩] ∧
    userRow (trackTokenUsage (trackTokenUsage dbSample "user-1" "gpt-4o" 5 none).1
        "user-1" "gpt-4o" 5 none).1 "user-1" =
      some ⟨"user-1", 0 + 2 * 5, 0 + 2 * computeCost 5 (5/2)⟩ := by
  have h := C7_not_idempotent dbSample "user-1" "gpt-4o" 5 none
    ⟨"svc-1", "gpt-4o", ["gpt-4o", "sonar-reasoning-pro"]⟩
    ⟨"gpt-4o", "gpt-4o", 5/2⟩ ⟨"user-1", 0, 0⟩
    (by rfl) (by rfl) (by rfl)
  exact ⟨h.2.2.1, h.2.2.2⟩

/-- Adding into the per-model map adds the token count to the map's token
total. -/
lemma sumTokens_usageByModelAdd (m : List (String × Nat × ℚ)) (k : String)
    (t : Nat) (c : ℚ) :
    sumTokens (usageByModelAdd m k t c) = sumTokens m + t := by
  induction m with
  | nil => simp [sumTokens, usageByModelAdd]
  | cons e rest ih =>
    obtain ⟨k', t', c'⟩ := e
    by_cases h : k' == k
    · simp [usageByModelAdd, h, sumTokens]
      omega
    · simp [usageByModelAdd, h, sumTokens] at *
      omega

/-- Adding into the per-model map adds the cost to the map's cost total. -/
lemma sumCosts_usageByModelAdd (m : List (String × Nat × ℚ)) (k : String)
    (t : Nat) (c : ℚ) :
    sumCosts (usageByModelAdd m k t c) = sumCosts m + c := by
  induction m with
  | nil => simp [sumCosts, usageByModelAdd]
  | cons e rest ih =>
    obtain ⟨k', t', c'⟩ := e
    by_cases h : k' == k
    · simp [usageByModelAdd, h, sumCosts]
      ring
    · simp [usageByModelAdd, h, sumCosts] at *
      rw [ih]
      ring

/-- The cost invariant of the summary fold: the grand cost total always
equals the per-model breakdown's cost sum, because both are updated
together. -/
lemma summFold_cost_inv (logs : List (Nat × String)) :
    ∀ s : UsageSummary, s.totalCostUSD = sumCosts s.usageByModel →
      (logs.foldl summStep s).totalCostUSD =
        sumCosts (logs.foldl summStep s).usageByModel := by
  induction logs with
  | nil => intro s hs; simpa using hs
  | cons log rest ih =>
    intro s hs
    rw [List.foldl_cons]
    refine ih _ ?_
    unfold summStep
    cases hpr : pricingFor log.2 with
    | none => simpa using hs
    | some pricing =>
      simp only [sumCosts_usageByModelAdd]
      rw [← hs]

/-- The token invariant of the summary fold holds as long as every log's
service name is priced. -/
lemma summFold_tokens_inv (logs : List (Nat × String)) :
    ∀ s : UsageSummary, (∀ l ∈ logs, (pricingFor l.2).isSome) →
      s.totalTokens = sumTokens s.usageByModel →
      (logs.foldl summStep s).totalTokens =
        sumTokens (logs.foldl summStep s).usageByModel := by
  induction logs with
  | nil => intro s _ hs; simpa using hs
  | cons log rest ih =>
    intro s hall hs
    rw [List.foldl_cons]
    refine ih _ (fun l hl => hall l (List.mem_cons_of_mem _ hl)) ?_
    have hpr : (pricingFor log.2).isSome := hall log (List.mem_cons_self _ _)
    unfold summStep
    cases hpr2 : pricingFor log.2 with
    | none => rw [hpr2] at hpr; simp at hpr
    | some pricing =>
      simp only [sumTokens_usageByModelAdd]
      rw [← hs]

/-- C9 (counterexample): a single usage record whose service name has no
pricing entry (`"unknown-model"`, 5 tokens) yields a summary whose grand
token total is 5 while its per-model breakdown is empty (sum 0) — the
claimed agreement fails. -/
theorem C9_totals_counterexample :
    (getUserUsageSummary [(5, "unknown-model")]).totalTokens ≠
      sumTokens (getUserUsageSummary [(5, "unknown-model")]).usageByModel := by
  decide

/-- C9 (amended): the grand cost total always equals the sum of the cost
fields over the per-model breakdown; the grand token total equals the sum
of the token fields over the breakdown provided every record's service name
has a pricing entry (records of unpriced services are counted in the grand
token total but never entered into the breakdown). -/
theorem C9_summary_consistency (logs : List (Nat × String)) :
    (getUserUsageSummary logs).totalCostUSD =
      sumCosts (getUserUsageSummary logs).usageByModel ∧
    ((∀ l ∈ logs, (pricingFor l.2).isSome) →
      (getUserUsageSummary logs).totalTokens =
        sumTokens (getUserUsageSummary logs).usageByModel) :=
  ⟨summFold_cost_inv logs ⟨0, 0, []⟩ rfl,
   fun hall => summFold_tokens_inv logs ⟨0, 0, []⟩ hall rfl⟩

/-- Witness for C9: on three priced records the grand totals agree with the
breakdown sums. -/
theorem C9_summary_consistency_witness :
    (getUserUsageSummary [(3, "gpt-4o"), (7, "gpt-4o"), (2, "gemini-pro")]).totalTokens =
      sumTokens (getUserUsageSummary
        [(3, "gpt-4o"), (7, "gpt-4o"), (2, "gemini-pro")]).usageByModel ∧
    (getUserUsageSummary [(3, "gpt-4o"), (7, "gpt-4o"), (2, "gemini-pro")]).totalCostUSD =
      sumCosts (getUserUsageSummary
        [(3, "gpt-4o"), (7, "gpt-4o"), (2, "gemini-pro")]).usageByModel :=
  ⟨(C9_summary_consistency [(3, "gpt-4o"), (7, "gpt-4o"), (2, "gemini-pro")]).2
      (by decide),
   (C9_summary_consistency [(3, "gpt-4o"), (7, "gpt-4o"), (2, "gemini-pro")]).1⟩

/-- Driving a stream of pure token events hands every token to the sink in
order and reports their number. -/
lemma runStreamAux_toks (toks : List String) :
    ∀ (acc : List String) (n : Nat),
      runStreamAux acc n (toks.map StreamEvent.tok) =
        (acc ++ toks, Except.ok (n + toks.length)) := by
  induction toks with
  | nil => intro acc n; simp [runStreamAux]
  | cons t ts ih =>
    intro acc n
    rw [List.map_cons]
    show runStreamAux (acc ++ [t]) (n + 1) (ts.map StreamEvent.tok) = _
    rw [ih (acc ++ [t]) (n + 1)]
    refine Prod.ext ?_ ?_
    · simp
    · simp only [List.length_cons]
      congr 1
      omega

/-- `runStream` over an error-free stream. -/
lemma runStream_toks (toks : List String) :
    runStream (toks.map StreamEvent.tok) = (toks, Except.ok toks.length) := by
  unfold runStream
  rw [runStreamAux_toks toks [] 0]
  simp

/-- Driving a stream that errors after its first `k` tokens: the sink has
received exactly those tokens and the error is reported; later events are
never reached. -/
lemma runStreamAux_err (toks : List String) (e : String) (rest : List StreamEvent) :
    ∀ (acc : List String) (n : Nat),
      runStreamAux acc n (toks.map StreamEvent.tok ++ StreamEvent.err e :: rest) =
        (acc ++ toks, Except.error e) := by
  induction toks with
  | nil => intro acc n; simp [runStreamAux]
  | cons t ts ih =>
    intro acc n
    rw [List.map_cons, List.cons_append]
    show runStreamAux (acc ++ [t]) (n + 1)
      (ts.map StreamEvent.tok ++ StreamEvent.err e :: rest) = _
    rw [ih (acc ++ [t]) (n + 1)]
    simp

/-- `runStream` over a stream erroring mid-way. -/
lemma runStream_err (toks : List String) (e : String) (rest : List StreamEvent) :
    runStream (toks.map StreamEvent.tok ++ StreamEvent.err e :: rest) =
      (toks, Except.error e) := by
  unfold runStream
  rw [runStreamAux_err toks e rest [] 0]
  simp

/-- A string has positive length exactly when it is not the empty string. -/
lemma string_length_pos_iff (s : String) : 0 < s.length ↔ s ≠ "" := by
  constructor
  · intro h he
    rw [he] at h
    exact absurd h (by decide)
  · intro h
    obtain ⟨d⟩ := s
    cases d with
    | nil => exact absurd rfl h
    | cons c cs =>
      show 0 < (c :: cs).length
      simp

/-- C2 (counterexample): a completed stream whose single token is `" "`
leaves a non-empty accumulated buffer, yet `streamChatCompletion` persists
no assistant message (the code tests the trimmed buffer, not the buffer). -/
theorem C2_nonempty_buffer_counterexample :
    String.join [" "] ≠ "" ∧
    streamChatCompletion dbSample (some "user-1") "gpt-4o"
        [StreamEvent.tok " "] [⟨"user", "hi"⟩] =
      ([" "], Except.ok ([⟨"user", "hi"⟩], dbSample)) :=
  ⟨by decide, by rfl⟩

/-- C2 (amended): for every history and error-free stream, both pipelines
forward all tokens to the sink in order and append exactly one assistant
message if and only if the TRIMMED accumulated buffer is non-empty — the
stored content being the buffer itself for `streamChatCompletion` and the
trimmed buffer for `streamAnonymousCompletion`; a whitespace-only or empty
buffer persists nothing. -/
theorem C2_persistence_iff_trimmed_nonempty (db : DB) (uid : Option String)
    (model : String) (p : Provider) (toks : List String) (msgs : List Msg)
    (hp : getAIProviderForModel model = Except.ok p) :
    (streamChatCompletion db uid model (toks.map StreamEvent.tok) msgs).1 = toks ∧
    (strTrim (String.join toks) ≠ "" →
      streamChatCompletion db uid model (toks.map StreamEvent.tok) msgs =
        (toks, Except.ok (addAssistantMessage msgs (String.join toks),
          match uid with
          | some u => (trackTokenUsage db u model toks.length
              ((msgs.getLast?).map Msg.content)).1
          | none => db))) ∧
    (strTrim (String.join toks) = "" →
      streamChatCompletion db uid model (toks.map StreamEvent.tok) msgs =
        (toks, Except.ok (msgs, db))) ∧
    (ALLOWED_MODELS.contains model = true → msgs ≠ [] →
      (strTrim (String.join toks) ≠ "" →
        streamAnonymousCompletion model (toks.map StreamEvent.tok) msgs =
          (toks, Except.ok (anonAddAssistantMessage msgs (String.join toks),
            toks.length))) ∧
      (strTrim (String.join toks) = "" →
        streamAnonymousCompletion model (toks.map StreamEvent.tok) msgs =
          (toks, Except.ok (msgs, toks.length)))) := by
  have hrun := runStream_toks toks
  have hne : ∀ ms : List Msg, ms ≠ [] → ¬(ms.isEmpty = true) := by
    intro ms hms hcon
    exact hms (List.isEmpty_iff.mp hcon)
  refine ⟨?_, fun h => ?_, fun h => ?_, fun hmod hmsgs => ⟨fun h => ?_, fun h => ?_⟩⟩
  · unfold streamChatCompletion
    simp only [hp, hrun]
    split <;> rfl
  · unfold streamChatCompletion
    simp only [hp, hrun]
    rw [if_pos ((string_length_pos_iff _).mpr h)]
  · unfold streamChatCompletion
    simp only [hp, hrun]
    rw [if_neg (by rw [h]; decide)]
  · unfold streamAnonymousCompletion
    rw [if_neg (not_not_intro hmod), if_neg (hne msgs hmsgs)]
    simp only [hp, hrun]
    rw [if_pos h]
  · unfold streamAnonymousCompletion
    rw [if_neg (not_not_intro hmod), if_neg (hne msgs hmsgs)]
    simp only [hp, hrun]
    rw [if_neg (not_not_intro h)]

/-- Witness for C2: the end-to-end scenario — history `[user "hi"]`, stream
`["Hi", " there"]` — has the sink observing `"Hi"` then `" there"`, the
assistant message `"Hi there"` persisted, and the anonymous pipeline
returning 2. -/
theorem C2_persistence_iff_trimmed_nonempty_witness :
    streamChatCompletion dbSample none "gpt-4o"
        (["Hi", " there"].map StreamEvent.tok) [⟨"user", "hi"⟩] =
      (["Hi", " there"],
        Except.ok (addAssistantMessage [⟨"user", "hi"⟩]
          (String.join ["Hi", " there"]), dbSample)) ∧
    String.join ["Hi", " there"] = "Hi there" ∧
    streamAnonymousCompletion "gpt-3.5-turbo"
        (["Hi", " there"].map StreamEvent.tok) [⟨"user", "hi"⟩] =
      (["Hi", " there"],
        Except.ok (anonAddAssistantMessage [⟨"user", "hi"⟩]
          (String.join ["Hi", " there"]), 2)) := by
  have h := C2_persistence_iff_trimmed_nonempty dbSample none "gpt-4o"
    Provider.openai ["Hi", " there"] [⟨"user", "hi"⟩] (by rfl)
  have h2 := C2_persistence_iff_trimmed_nonempty dbSample none "gpt-3.5-turbo"
    Provider.openai ["Hi", " there"] [⟨"user", "hi"⟩] (by rfl)
  refine ⟨h.2.1 (by decide), by decide, ?_⟩
  exact (h2.2.2.2 (by decide) (by simp)).1 (by decide)

/-- C3: if the adapter's stream errors after emitting its first `k` tokens,
both pipelines have invoked the sink with exactly those `k` tokens in
emission order, the error propagates, and no assistant message is persisted
(the persistence step is never reached — the returned state carries the
unchanged conversation). -/
theorem C3_error_propagation (db : DB) (uid : Option String) (model : String)
    (p : Provider) (toks : List String) (e : String) (rest : List StreamEvent)
    (msgs : List Msg)
    (hp : getAIProviderForModel model = Except.ok p) :
    streamChatCompletion db uid model
        (toks.map StreamEvent.tok ++ StreamEvent.err e :: rest) msgs =
      (toks, Except.error e) ∧
    (ALLOWED_MODELS.contains model = true → msgs ≠ [] →
      streamAnonymousCompletion model
          (toks.map StreamEvent.tok ++ StreamEvent.err e :: rest) msgs =
        (toks, Except.error e)) := by
  have hrun := runStream_err toks e rest
  refine ⟨?_, fun hmod hmsgs => ?_⟩
  · unfold streamChatCompletion
    simp only [hp, hrun]
  · unfold streamAnonymousCompletion
    rw [if_neg (not_not_intro hmod),
      if_neg (fun hcon => hmsgs (List.isEmpty_iff.mp hcon))]
    simp only [hp, hrun]

/-- Witness for C3: a stream erroring after one token leaves the sink with
exactly that token and no persisted assistant message, in both pipelines. -/
theorem C3_error_propagation_witness :
    streamChatCompletion dbSample (some "user-1") "gpt-4o"
        (["a"].map StreamEvent.tok ++ StreamEvent.err "boom" :: [StreamEvent.tok "b"])
        [⟨"user", "hi"⟩] = (["a"], Except.error "boom") ∧
    streamAnonymousCompletion "gpt-3.5-turbo"
        (["a"].map StreamEvent.tok ++ StreamEvent.err "boom" :: [StreamEvent.tok "b"])
        [⟨"user", "hi"⟩] = (["a"], Except.error "boom") := by
  have h := C3_error_propagation dbSample (some "user-1") "gpt-4o"
    Provider.openai ["a"] "boom" [StreamEvent.tok "b"] [⟨"user", "hi"⟩] (by rfl)
  have h2 := C3_error_propagation dbSample none "gpt-3.5-turbo"
    Provider.openai ["a"] "boom" [StreamEvent.tok "b"] [⟨"user", "hi"⟩] (by rfl)
  exact ⟨h.1, h2.2 (by decide) (by simp)⟩

/-- `splitOnNl` at the empty text. -/
lemma splitOnNl_nil : splitOnNl [] = [[]] := rfl

/-- `splitOnNl` consumes a leading newline into an empty first piece. -/
lemma splitOnNl_cons_nl (rest : List Char) :
    splitOnNl ('\n' :: rest) = [] :: splitOnNl rest := by
  simp [splitOnNl]

/-- `splitOnNl` prepends an ordinary character onto the first piece. -/
lemma splitOnNl_cons (c : Char) (rest : List Char) (hc : c ≠ '\n') :
    splitOnNl (c :: rest) =
      match splitOnNl rest with
      | [] => [[c]]
      | l :: ls => (c :: l) :: ls := by
  simp [splitOnNl, hc]

/-- `splitOnNl` never returns an empty list (like JS `split`). -/
lemma splitOnNl_ne_nil (s : List Char) : splitOnNl s ≠ [] := by
  induction s with
  | nil => simp [splitOnNl_nil]
  | cons c rest ih =>
    by_cases hc : c = '\n'
    · subst hc; simp [splitOnNl_cons_nl]
    · rw [splitOnNl_cons c rest hc]
      cases splitOnNl rest <;> simp

/-- A newline-free text splits into itself alone. -/
lemma splitOnNl_no_newline (s : List Char) (h : '\n' ∉ s) :
    splitOnNl s = [s] := by
  induction s with
  | nil => rfl
  | cons c rest ih =>
    have hc : c ≠ '\n' := fun hcon => h (by rw [hcon]; exact List.mem_cons_self _ _)
    have hrest : '\n' ∉ rest := fun hcon => h (List.mem_cons_of_mem _ hcon)
    rw [splitOnNl_cons c rest hc, ih hrest]

/-- Splitting a concatenation whose left part is newline-free merges the
left part into the first piece of the right part's split. -/
lemma splitOnNl_append_cons (b : List Char) :
    ∀ (a : List Char), '\n' ∉ a → ∀ l ls, splitOnNl b = l :: ls →
      splitOnNl (a ++ b) = (a ++ l) :: ls := by
  intro a
  induction a with
  | nil => intro _ l ls hb; simpa using hb
  | cons c a' ih =>
    intro h l ls hb
    have hc : c ≠ '\n' := fun hcon => h (by rw [hcon]; exact List.mem_cons_self _ _)
    have ha' : '\n' ∉ a' := fun hcon => h (List.mem_cons_of_mem _ hcon)
    show splitOnNl (c :: (a' ++ b)) = _
    rw [splitOnNl_cons c (a' ++ b) hc, ih ha' l ls hb]
    rfl

/-- Every piece returned by `splitOnNl` is newline-free. -/
lemma splitOnNl_parts_no_nl (s : List Char) :
    ∀ l, l ∈ splitOnNl s → '\n' ∉ l := by
  induction s with
  | nil => intro l hl; simp [splitOnNl_nil] at hl; simp [hl]
  | cons c rest ih =>
    by_cases hc : c = '\n'
    · subst hc
      intro l hl
      rw [splitOnNl_cons_nl] at hl
      rcases List.mem_cons.mp hl with h1 | h1
      · simp [h1]
      · exact ih l h1
    · intro l hl
      rw [splitOnNl_cons c rest hc] at hl
      cases hrest : splitOnNl rest with
      | nil => exact absurd hrest (splitOnNl_ne_nil rest)
      | cons l0 ls =>
        rw [hrest] at hl
        rcases List.mem_cons.mp hl with h1 | h1
        · subst h1
          intro hcon
          rcases List.mem_cons.mp hcon with h2 | h2
          · exact hc h2.symm
          · exact ih l0 (by rw [hrest]; exact List.mem_cons_self _ _) h2
        · exact ih l (by rw [hrest]; exact List.mem_cons_of_mem _ h1)

/-- `getLast!` of a singleton. -/
lemma getLastBang_singleton (x : List Char) : ([x] : List (List Char)).getLast! = x := by
  rw [List.getLast!_cons]
  rfl

/-- `getLast!` skips a head when the tail is non-empty. -/
lemma getLastBang_cons_of_ne_nil (a : List Char) (l : List (List Char))
    (h : l ≠ []) : (a :: l).getLast! = l.getLast! := by
  cases l with
  | nil => exact absurd rfl h
  | cons b bs =>
    rw [List.getLast!_cons]
    rfl

/-- `getLast!` of a non-empty list is one of its elements. -/
lemma getLastBang_mem : ∀ (l : List (List Char)), l ≠ [] → l.getLast! ∈ l := by
  intro l
  induction l with
  | nil => intro h; exact absurd rfl h
  | cons a bs ih =>
    intro _
    cases hbs : bs with
    | nil => rw [getLastBang_singleton]; exact List.mem_cons_self _ _
    | cons b bs' =>
      rw [← hbs, getLastBang_cons_of_ne_nil a bs (by rw [hbs]; simp)]
      exact List.mem_cons_of_mem _ (ih (by rw [hbs]; simp))

/-- The carry-over piece kept by the split is always newline-free. -/
lemma no_nl_lastPart (s : List Char) : '\n' ∉ (splitOnNl s).getLast! :=
  splitOnNl_parts_no_nl s _ (getLastBang_mem _ (splitOnNl_ne_nil s))

/-- The read-level buffering is computed by the character-level machine:
folding `feedChar` over a chunk starting from a newline-free carry buffer
yields exactly the completed lines and carry of `splitOnNl`. -/
lemma foldl_feedChar_split (chunk : List Char) :
    ∀ (acc : List (List Char)) (cur : List Char), '\n' ∉ cur →
      List.foldl feedChar (acc, cur) chunk =
        (acc ++ (splitOnNl (cur ++ chunk)).dropLast,
         (splitOnNl (cur ++ chunk)).getLast!) := by
  induction chunk with
  | nil =>
    intro acc cur h
    rw [List.foldl_nil, List.append_nil, splitOnNl_no_newline cur h]
    rw [getLastBang_singleton]
    simp
  | cons c cs ih =>
    intro acc cur h
    rw [List.foldl_cons]
    by_cases hc : c = '\n'
    · subst hc
      rw [show feedChar (acc, cur) '\n' = (acc ++ [cur], []) from by
        simp [feedChar]]
      rw [ih (acc ++ [cur]) [] (by simp)]
      have hsplit : splitOnNl (cur ++ '\n' :: cs) = cur :: splitOnNl cs := by
        rw [splitOnNl_append_cons ('\n' :: cs) cur h ([] : List Char)
          (splitOnNl cs) (splitOnNl_cons_nl cs)]
        simp
      rw [hsplit, List.dropLast_cons_of_ne_nil (splitOnNl_ne_nil cs),
        getLastBang_cons_of_ne_nil cur _ (splitOnNl_ne_nil cs)]
      simp
    · rw [show feedChar (acc, cur) c = (acc, cur ++ [c]) from by
        simp [feedChar, hc]]
      rw [ih acc (cur ++ [c]) (by
        intro hcon
        rcases List.mem_append.mp hcon with h1 | h1
        · exact h h1
        · simp at h1; exact hc h1.symm)]
      rw [show (cur ++ [c]) ++ cs = cur ++ c :: cs from by
        rw [List.append_assoc]; rfl]

/-- The read loop equals the character-level machine run over the
concatenation of all reads (the carry buffer is newline-free throughout). -/
lemma runReads_foldl (reads : List (List Char)) :
    ∀ (acc : List (List Char)) (cur : List Char), '\n' ∉ cur →
      reads.foldl
        (fun acc chunk =>
          let r := processRead acc.2 chunk
          (acc.1 ++ r.1, r.2)) (acc, cur) =
        List.foldl feedChar (acc, cur) reads.flatten := by
  induction reads with
  | nil => intro acc cur _; rfl
  | cons chunk reads' ih =>
    intro acc cur h
    rw [List.foldl_cons]
    show reads'.foldl _
        (acc ++ (processRead cur chunk).1, (processRead cur chunk).2) = _
    have hcur' : '\n' ∉ (processRead cur chunk).2 := no_nl_lastPart (cur ++ chunk)
    rw [ih (acc ++ (processRead cur chunk).1) (processRead cur chunk).2 hcur']
    rw [show ((chunk :: reads').flatten) = chunk ++ reads'.flatten from rfl,
      List.foldl_append, foldl_feedChar_split chunk acc cur h]
    rfl

/-- Chunking invariance of the line reassembly: the complete lines (and the
final carry) produced by any sequence of reads equal those produced by one
single read of the whole text. -/
lemma runReads_eq_single (reads : List (List Char)) :
    runReads reads = runReads [reads.flatten] := by
  unfold runReads
  rw [runReads_foldl reads [] [] (by simp),
    runReads_foldl [reads.flatten] [] [] (by simp)]
  rw [show ([reads.flatten] : List (List Char)).flatten = reads.flatten ++ [] from rfl]
  rw [List.append_nil]

/-- C8: the carry-over line buffering itself is chunking-invariant — for
every way of splitting the decoded text into reads, the emitted token
sequence equals that of a single read, and each complete line contributes
at most one token (second and third conjuncts). But at the byte level the
code is NOT chunking-invariant, because each read is decoded by a fresh
`new TextDecoder().decode(...)`: a two-byte UTF-8 character (`é`,
`0xC3 0xA9`) split across two reads decodes to two replacement characters
instead, changing the emitted tokens (first conjunct evaluates the code at
that failing input). -/
theorem C8_deepseek_chunking (parse0 : List Char → Option String) :
    (deepseekTokensBytes (fun l => some (String.mk l)) [[0xC3], [0xA9], [0x0A]] ≠
      deepseekTokensBytes (fun l => some (String.mk l)) [[0xC3, 0xA9, 0x0A]]) ∧
    (∀ (reads : List (List Char)),
      deepseekTokens parse0 reads = deepseekTokens parse0 [reads.flatten]) ∧
    (∀ (reads : List (List Char)),
      (deepseekTokens parse0 reads).length ≤ (runReads reads).1.length) := by
  refine ⟨by decide, fun reads => ?_, fun reads => ?_⟩
  · unfold deepseekTokens
    rw [runReads_eq_single reads]
  · exact List.length_filterMap_le _ _
